import Mathlib

/-!
Verification of masaar_core: message construction and reception hooks.

A shallow embedding of `masaar_core.cpp` / `masaar_core.h`.

* A `std::string` is a finite sequence of `char` elements.  It is modelled by a Lean
  `String`, one `Char` standing for one element of the C++ string; `+` on
  `std::string` is `++`, `size()` is `String.length`.
* The file-level variable `node_id` is the only state.  It is carried explicitly in
  `State`, and every operation maps a state to its return value and the next state.
* Storage is not modelled: a `String` has any length, and the exceptions that
  `std::string` raises when it cannot allocate (`std::bad_alloc`, `std::length_error`)
  have no counterpart here.  The theorems are about the values the calls return.
-/

namespace Masaar

/-- The mutable state of the translation unit: `static std::string node_id`. -/
structure State where
  node_id : String
  deriving DecidableEq, Repr

/-- The state at program start: `static std::string node_id = "unknown";`. -/
def State.initial : State := ⟨"unknown"⟩

/-- `void setNodeId(const std::string& id)`: the body is `node_id = id;`. -/
def setNodeId (id : String) (_s : State) : Unit × State :=
  ((), ⟨id⟩)

/-- `std::string buildMessage(const std::string& payload, const std::string& dst)`:
the four raw literals and `node_id`, `dst`, `payload` joined by `+` (left to right);
`node_id` is read and not written. -/
def buildMessage (payload dst : String) (s : State) : String × State :=
  let json := "\x7b\"type\":\"DATA\",\"src\":\"" ++ s.node_id ++
              "\",\"dst\":\"" ++ dst ++
              "\",\"payload\":\"" ++ payload ++ "\"\x7d"
  (json, s)

/-- `std::string handleIncoming(const std::string& jsonMsg)`: the body is
`return "Received: " + jsonMsg;`. -/
def handleIncoming (jsonMsg : String) (s : State) : String × State :=
  ("Received: " ++ jsonMsg, s)

/-- One call made by the host through the interface declared in `masaar_core.h`. -/
inductive Call where
  | set (id : String)
  | build (payload dst : String)
  | handle (jsonMsg : String)
  deriving DecidableEq, Repr

/-- Whether the call is a call of `setNodeId`. -/
def Call.isSet : Call → Bool
  | .set _ => true
  | _ => false

/-- Perform one call: the returned string (none for the `void` setter) and the next state. -/
def Call.run : Call → State → Option String × State
  | .set id, s => (none, (setNodeId id s).2)
  | .build payload dst, s => (some (buildMessage payload dst s).1, (buildMessage payload dst s).2)
  | .handle jsonMsg, s => (some (handleIncoming jsonMsg s).1, (handleIncoming jsonMsg s).2)

/-- Perform a sequence of calls in order and give the state reached. -/
def runCalls : List Call → State → State
  | [], s => s
  | c :: cs, s => runCalls cs (c.run s).2

/-! ## Reading JSON

The source holds no JSON reader.  To say what it means for a built message to be
well-formed JSON that reads back the destination and the payload, the grammar of
RFC 8259 is written out here as a recursive-descent reader over the characters of a
text.  These definitions stand on the side of the requirement, not of the program. -/

/-- A JSON value as RFC 8259 defines it; a number keeps its text. -/
inductive Json where
  | null
  | bool (b : Bool)
  | num (text : List Char)
  | str (s : List Char)
  | arr (items : List Json)
  | obj (members : List (List Char × Json))

/-- The string held by a JSON string value. -/
def Json.asString : Json → Option (List Char)
  | .str s => some s
  | _ => none

/-- Drop leading JSON whitespace: space, tab, line feed, carriage return. -/
def skipWs : List Char → List Char
  | [] => []
  | c :: cs => if c = ' ' ∨ c = '\t' ∨ c = '\n' ∨ c = '\r' then skipWs cs else c :: cs

/-- The value of a hexadecimal digit. -/
def hexDigit (c : Char) : Option Nat :=
  if '0' ≤ c ∧ c ≤ '9' then some (c.toNat - '0'.toNat)
  else if 'a' ≤ c ∧ c ≤ 'f' then some (c.toNat - 'a'.toNat + 10)
  else if 'A' ≤ c ∧ c ≤ 'F' then some (c.toNat - 'A'.toNat + 10)
  else none

/-- The value of four hexadecimal digits. -/
def hex4 (a b c d : Char) : Option Nat :=
  match hexDigit a, hexDigit b, hexDigit c, hexDigit d with
  | some x, some y, some z, some w => some (((x * 16 + y) * 16 + z) * 16 + w)
  | _, _, _, _ => none

/-- The character a two-character escape stands for. -/
def unescape (c : Char) : Option Char :=
  if c = '"' then some '"'
  else if c = '\\' then some '\\'
  else if c = '/' then some '/'
  else if c = 'b' then some (Char.ofNat 8)
  else if c = 'f' then some (Char.ofNat 12)
  else if c = 'n' then some '\n'
  else if c = 'r' then some '\r'
  else if c = 't' then some '\t'
  else none

/-- Read the body of a string, the opening quote already consumed, up to and including
the closing quote: the code points read (a `\u` escape gives its 16-bit unit) and the
rest of the input.  Control characters are not allowed unescaped. -/
def readString : List Char → Option (List Nat × List Char)
  | [] => none
  | c :: rest =>
    if c = '"' then some ([], rest)
    else if c = '\\' then
      match rest with
      | [] => none
      | e :: rest2 =>
        if e = 'u' then
          match rest2 with
          | h1 :: h2 :: h3 :: h4 :: rest3 =>
            match hex4 h1 h2 h3 h4, readString rest3 with
            | some v, some (s, r) => some (v :: s, r)
            | _, _ => none
          | _ => none
        else
          match unescape e, readString rest2 with
          | some x, some (s, r) => some (x.toNat :: s, r)
          | _, _ => none
    else if c.toNat < 32 then none
    else
      match readString rest with
      | some (s, r) => some (c.toNat :: s, r)
      | none => none

/-- Turn the code points of a string into characters: a high surrogate followed by a
low surrogate is one character, a surrogate on its own is U+FFFD. -/
def joinSurrogates : List Nat → List Char
  | [] => []
  | [v] => [if 0xD800 ≤ v ∧ v < 0xE000 then Char.ofNat 0xFFFD else Char.ofNat v]
  | hi :: lo :: rest =>
    if 0xD800 ≤ hi ∧ hi < 0xDC00 ∧ 0xDC00 ≤ lo ∧ lo < 0xE000 then
      Char.ofNat (0x10000 + (hi - 0xD800) * 0x400 + (lo - 0xDC00)) :: joinSurrogates rest
    else
      (if 0xD800 ≤ hi ∧ hi < 0xE000 then Char.ofNat 0xFFFD else Char.ofNat hi) ::
        joinSurrogates (lo :: rest)

/-- Read the integer part of a number: a single zero, or a nonzero digit and digits. -/
def readInt : List Char → Option (List Char × List Char)
  | [] => none
  | c :: r =>
    if c = '0' then some (['0'], r)
    else if c.isDigit then some (c :: (r.span Char.isDigit).1, (r.span Char.isDigit).2)
    else none

/-- Read an optional fraction: a point and at least one digit. -/
def readFrac : List Char → Option (List Char × List Char)
  | [] => some ([], [])
  | c :: r =>
    if c = '.' then
      if (r.span Char.isDigit).1 = [] then none
      else some (c :: (r.span Char.isDigit).1, (r.span Char.isDigit).2)
    else some ([], c :: r)

/-- Read an optional sign of an exponent. -/
def readSign : List Char → List Char × List Char
  | [] => ([], [])
  | c :: r => if c = '+' ∨ c = '-' then ([c], r) else ([], c :: r)

/-- Read an optional exponent: `e` or `E`, an optional sign and at least one digit. -/
def readExp : List Char → Option (List Char × List Char)
  | [] => some ([], [])
  | c :: r =>
    if c = 'e' ∨ c = 'E' then
      if ((readSign r).2.span Char.isDigit).1 = [] then none
      else some (c :: (readSign r).1 ++ ((readSign r).2.span Char.isDigit).1,
        ((readSign r).2.span Char.isDigit).2)
    else some ([], c :: r)

/-- Read a number: an optional minus, the integer part, the fraction, the exponent. -/
def readNumber (cs : List Char) : Option (List Char × List Char) :=
  let signed := match cs with
    | [] => ([], [])
    | c :: r => if c = '-' then ([c], r) else ([], c :: r)
  match readInt signed.2 with
  | none => none
  | some (i, r1) =>
    match readFrac r1 with
    | none => none
    | some (f, r2) =>
      match readExp r2 with
      | none => none
      | some (e, r3) => some (signed.1 ++ i ++ f ++ e, r3)

mutual
/-- Read one value at the head of the input; `fuel` bounds the depth of the reading. -/
def readValue : Nat → List Char → Option (Json × List Char)
  | 0, _ => none
  | fuel + 1, cs =>
    match cs with
    | [] => none
    | '"' :: rest =>
      match readString rest with
      | some (s, r) => some (.str (joinSurrogates s), r)
      | none => none
    | '{' :: rest =>
      match skipWs rest with
      | '}' :: r => some (.obj [], r)
      | r =>
        match readMembers fuel r with
        | some (ms, r2) => some (.obj ms, r2)
        | none => none
    | '[' :: rest =>
      match skipWs rest with
      | ']' :: r => some (.arr [], r)
      | r =>
        match readElements fuel r with
        | some (vs, r2) => some (.arr vs, r2)
        | none => none
    | 't' :: 'r' :: 'u' :: 'e' :: r => some (.bool true, r)
    | 'f' :: 'a' :: 'l' :: 's' :: 'e' :: r => some (.bool false, r)
    | 'n' :: 'u' :: 'l' :: 'l' :: r => some (.null, r)
    | _ =>
      match readNumber cs with
      | some (t, r) => some (.num t, r)
      | none => none
/-- Read the members of an object after its opening brace, up to and including the
closing brace: a name, a colon and a value, then a comma and more members or the end. -/
def readMembers : Nat → List Char → Option (List (List Char × Json) × List Char)
  | 0, _ => none
  | fuel + 1, cs =>
    match cs with
    | '"' :: rest =>
      match readString rest with
      | none => none
      | some (k, r1) =>
        match skipWs r1 with
        | ':' :: r2 =>
          match readValue fuel (skipWs r2) with
          | none => none
          | some (v, r3) =>
            match skipWs r3 with
            | ',' :: r4 =>
              match readMembers fuel (skipWs r4) with
              | some (ms, r5) => some ((joinSurrogates k, v) :: ms, r5)
              | none => none
            | '}' :: r4 => some ([(joinSurrogates k, v)], r4)
            | _ => none
        | _ => none
    | _ => none
/-- Read the elements of an array after its opening bracket, up to and including the
closing bracket. -/
def readElements : Nat → List Char → Option (List Json × List Char)
  | 0, _ => none
  | fuel + 1, cs =>
    match readValue fuel cs with
    | none => none
    | some (v, r1) =>
      match skipWs r1 with
      | ',' :: r2 =>
        match readElements fuel (skipWs r2) with
        | some (vs, r3) => some (v :: vs, r3)
        | none => none
      | ']' :: r2 => some ([v], r2)
      | _ => none
end

/-- Read a whole JSON text: whitespace, one value, whitespace, and nothing more. -/
def parseJson (fuel : Nat) (text : List Char) : Option Json :=
  match readValue fuel (skipWs text) with
  | some (v, r) => if skipWs r = [] then some v else none
  | none => none

/-- Whether some member has the name `key` and the string value `val`. -/
def hasMember (key val : List Char) (ms : List (List Char × Json)) : Bool :=
  ms.any fun m => m.1 = key && m.2.asString = some val

/-- Whether the text, read with the given fuel, is a JSON object with a member "dst" of
string value `dst` and a member "payload" of string value `payload`. -/
def readsBackAt (fuel : Nat) (text dst payload : String) : Bool :=
  match parseJson fuel text.data with
  | some (.obj ms) => hasMember "dst".data dst.data ms && hasMember "payload".data payload.data ms
  | _ => false

/-- The text is a well-formed JSON object whose "dst" and "payload" string values read
back as `dst` and `payload`. -/
def ReadsBack (text dst payload : String) : Prop :=
  ∃ fuel, readsBackAt fuel text dst payload = true

/-! ## Shared lemmas -/

theorem buildMessage_fst (payload dst : String) (s : State) :
    (buildMessage payload dst s).1 =
      "\x7b\"type\":\"DATA\",\"src\":\"" ++ s.node_id ++ "\",\"dst\":\"" ++ dst ++
        "\",\"payload\":\"" ++ payload ++ "\"\x7d" := rfl

theorem run_frame (c : Call) (s : State) (h : c.isSet = false) : (c.run s).2 = s := by
  cases c with
  | set id => simp [Call.isSet] at h
  | build payload dst => rfl
  | handle jsonMsg => rfl

theorem runCalls_frame (cs : List Call) (s : State) (h : ∀ c ∈ cs, c.isSet = false) :
    runCalls cs s = s := by
  induction cs generalizing s with
  | nil => rfl
  | cons c cs ih =>
    have hc : c.isSet = false := h c (List.mem_cons_self c cs)
    have hcs : ∀ d ∈ cs, d.isSet = false := fun d hd => h d (List.mem_cons_of_mem c hd)
    simp only [runCalls, run_frame c s hc]
    exact ih s hcs

/-- Two lists that agree after a first occurrence of `a` agree before and after it. -/
theorem split_at_first {α : Type} (a : α) (xs ys r r2 : List α)
    (hx : a ∉ xs) (hy : a ∉ ys) (h : xs ++ a :: r = ys ++ a :: r2) : xs = ys ∧ r = r2 := by
  induction xs generalizing ys with
  | nil =>
    cases ys with
    | nil => exact ⟨rfl, by simpa using h⟩
    | cons y ys =>
      have hay : a = y := by simpa using (List.cons.inj h).1
      exact absurd (hay ▸ List.mem_cons_self a ys) hy
  | cons x xs ih =>
    cases ys with
    | nil =>
      have hxa : x = a := by simpa using (List.cons.inj h).1
      exact absurd (hxa ▸ List.mem_cons_self a xs) hx
    | cons y ys =>
      have h2 := List.cons.inj h
      have hx2 : a ∉ xs := fun hm => hx (List.mem_cons_of_mem x hm)
      have hy2 : a ∉ ys := fun hm => hy (List.mem_cons_of_mem y hm)
      obtain ⟨e1, e2⟩ := ih ys hx2 hy2 h2.2
      exact ⟨by rw [h2.1, e1], e2⟩

/-- The characters of a built message: each literal begins or ends at a double quote. -/
theorem buildMessage_data (payload dst : String) (s : State) :
    (buildMessage payload dst s).1.data =
      "\x7b\"type\":\"DATA\",\"src\":\"".data ++ (s.node_id.data ++ '"' ::
        (",\"dst\":\"".data ++ (dst.data ++ '"' ::
          (",\"payload\":\"".data ++ (payload.data ++ "\"\x7d".data))))) := by
  rw [buildMessage_fst]
  simp only [String.data_append, List.append_assoc]
  rfl

/-! ## Claims -/

/-- C1: for every node id and all strings payload and dst, `buildMessage payload dst`
returns the first literal, the node id, the second literal, dst, the third literal,
payload and the closing literal, concatenated in that order; with node id "unknown",
payload "hi" and dst "B" that is the message shown. -/
theorem buildMessage_spec (n payload dst : String) :
    (buildMessage payload dst ⟨n⟩).1 =
      String.join ["\x7b\"type\":\"DATA\",\"src\":\"", n, "\",\"dst\":\"", dst,
        "\",\"payload\":\"", payload, "\"\x7d"] ∧
    (buildMessage "hi" "B" ⟨"unknown"⟩).1 =
      "\x7b\"type\":\"DATA\",\"src\":\"unknown\",\"dst\":\"B\",\"payload\":\"hi\"\x7d" := by
  refine ⟨?_, by decide⟩
  simp [buildMessage, String.join, String.append_assoc]

/-- C2: for every string jsonMsg and every node id, `handleIncoming jsonMsg` returns the
ten-character literal "Received: " followed by jsonMsg unchanged, whatever the node
id is. -/
theorem handleIncoming_spec (jsonMsg : String) (s : State) :
    (handleIncoming jsonMsg s).1 = "Received: " ++ jsonMsg ∧
    (handleIncoming jsonMsg s).1.data = "Received: ".data ++ jsonMsg.data ∧
    "Received: ".length = 10 ∧
    (∀ s2 : State, (handleIncoming jsonMsg s2).1 = (handleIncoming jsonMsg s).1) ∧
    (handleIncoming "" s).1 = "Received: " := by
  refine ⟨rfl, ?_, by decide, fun _ => rfl, ?_⟩
  · simp [handleIncoming]
  · simp [handleIncoming]

/-- C3: for every previous state and every string id, after `setNodeId id` the node id
is id; a `buildMessage` made later, after any calls that are not `setNodeId`, carries
id as its src value; the previous node id has no influence, the last write wins and
setting the same id twice is the same as setting it once. -/
theorem setNodeId_overwrites (prev : State) (id0 id payload dst : String)
    (later : List Call) (h : ∀ c ∈ later, c.isSet = false) :
    (setNodeId id prev).2.node_id = id ∧
    (buildMessage payload dst (runCalls later (setNodeId id prev).2)).1 =
      "\x7b\"type\":\"DATA\",\"src\":\"" ++ id ++ "\",\"dst\":\"" ++ dst ++
        "\",\"payload\":\"" ++ payload ++ "\"\x7d" ∧
    (∀ prev2 : State, (setNodeId id prev2).2 = (setNodeId id prev).2) ∧
    (setNodeId id (setNodeId id0 prev).2).2 = (setNodeId id prev).2 ∧
    (setNodeId id (setNodeId id prev).2).2 = (setNodeId id prev).2 := by
  refine ⟨rfl, ?_, fun _ => rfl, rfl, rfl⟩
  rw [runCalls_frame later _ h]
  rfl

/-- Witness of C3: the id `a"\b` written over the initial state, then one
`handleIncoming` and one `buildMessage` call, then the message to "B". -/
theorem setNodeId_overwrites_witness :
    (setNodeId "a\"\\b" State.initial).2.node_id = "a\"\\b" ∧
    (buildMessage "hi" "B"
        (runCalls [Call.handle "x", Call.build "p" "d"] (setNodeId "a\"\\b" State.initial).2)).1 =
      "\x7b\"type\":\"DATA\",\"src\":\"a\"\\b\",\"dst\":\"B\",\"payload\":\"hi\"\x7d" :=
  have h := setNodeId_overwrites State.initial "old" "a\"\\b" "hi" "B"
    [Call.handle "x", Call.build "p" "d"] (by decide)
  ⟨h.1, h.2.1.trans (by decide)⟩

/-- C4: `buildMessage` and `handleIncoming` leave the node id as it was, so a sequence
of calls with no `setNodeId` among them ends in the state it started from, and a
`buildMessage` made after it returns what it would have returned before it. -/
theorem only_setNodeId_changes_state (s : State) (payload dst jsonMsg : String)
    (cs : List Call) (h : ∀ c ∈ cs, c.isSet = false) :
    (buildMessage payload dst s).2 = s ∧
    (handleIncoming jsonMsg s).2 = s ∧
    runCalls cs s = s ∧
    (buildMessage payload dst (runCalls cs s)).1 = (buildMessage payload dst s).1 := by
  refine ⟨rfl, rfl, runCalls_frame cs s h, ?_⟩
  rw [runCalls_frame cs s h]

/-- Witness of C4: three reading calls after `setNodeId "A"`. -/
theorem only_setNodeId_changes_state_witness :
    runCalls [Call.build "p" "d", Call.handle "m", Call.build "" ""] ⟨"A"⟩ = ⟨"A"⟩ ∧
    (buildMessage "hi" "B"
        (runCalls [Call.build "p" "d", Call.handle "m", Call.build "" ""] ⟨"A"⟩)).1 =
      "\x7b\"type\":\"DATA\",\"src\":\"A\",\"dst\":\"B\",\"payload\":\"hi\"\x7d" :=
  have h := only_setNodeId_changes_state ⟨"A"⟩ "hi" "B" "m"
    [Call.build "p" "d", Call.handle "m", Call.build "" ""] (by decide)
  ⟨h.2.2.1, h.2.2.2.trans (by decide)⟩

/-- C5: there are payloads and destinations holding a double quote or a backslash for
which the built message is corrupted JSON.  With payload the one character `"` the
message is not well-formed JSON at all; the same holds for payload `\` and for the
destination `a"b`; with payload `\\` the message is well-formed and its payload value
reads back as the single character `\`; with payload `x","payload":"y` it is
well-formed and has the payload values x and y.  In none of these cases does the
message read back the destination and payload passed in, while the message for
payload "hi" and destination "B" does. -/
theorem buildMessage_corrupts_json :
    (∃ payload dst : String,
      ('"' ∈ payload.data ∨ '\\' ∈ payload.data ∨ '"' ∈ dst.data ∨ '\\' ∈ dst.data) ∧
      ¬ ReadsBack (buildMessage payload dst State.initial).1 dst payload) ∧
    (∀ fuel, parseJson fuel (buildMessage "\"" "B" State.initial).1.data = none) ∧
    ¬ ReadsBack (buildMessage "\"" "B" State.initial).1 "B" "\"" ∧
    ¬ ReadsBack (buildMessage "\\" "B" State.initial).1 "B" "\\" ∧
    ¬ ReadsBack (buildMessage "hi" "a\"b" State.initial).1 "a\"b" "hi" ∧
    ¬ ReadsBack (buildMessage "\\\\" "B" State.initial).1 "B" "\\\\" ∧
    ReadsBack (buildMessage "\\\\" "B" State.initial).1 "B" "\\" ∧
    ¬ ReadsBack (buildMessage "x\",\"payload\":\"y" "B" State.initial).1 "B"
      "x\",\"payload\":\"y" ∧
    ReadsBack (buildMessage "hi" "B" State.initial).1 "B" "hi" := by
  have never : ∀ text dst payload : String,
      (∀ fuel, readsBackAt fuel text dst payload = false) → ¬ ReadsBack text dst payload := by
    rintro text dst payload hall ⟨fuel, h⟩
    rw [hall fuel] at h
    exact Bool.false_ne_true h
  have quote : ¬ ReadsBack (buildMessage "\"" "B" State.initial).1 "B" "\"" :=
    never _ _ _ (fun fuel => by rcases fuel with _|_|_|_|_|_|_|fuel <;> rfl)
  refine ⟨⟨"\"", "B", Or.inl (by decide), quote⟩, ?_, quote, ?_, ?_, ?_, ⟨8, by decide⟩, ?_,
    ⟨8, by decide⟩⟩
  · intro fuel
    rcases fuel with _|_|_|_|_|_|_|fuel <;> rfl
  · exact never _ _ _ (fun fuel => by rcases fuel with _|_|_|_|_|_|_|fuel <;> rfl)
  · exact never _ _ _ (fun fuel => by rcases fuel with _|_|_|_|_|_|_|fuel <;> rfl)
  · exact never _ _ _ (fun fuel => by rcases fuel with _|_|_|_|_|_|_|fuel <;> rfl)
  · exact never _ _ _ (fun fuel => by rcases fuel with _|_|_|_|_|_|_|fuel <;> rfl)

/-- C7: the length of `buildMessage payload dst` is 46 plus the lengths of the node id,
dst and payload, where 46 = 22 + 9 + 13 + 2 is the length of the four literals, and the
length of `handleIncoming m` is 10 plus the length of m. -/
theorem message_lengths (s : State) (payload dst m : String) :
    (buildMessage payload dst s).1.length =
      46 + s.node_id.length + dst.length + payload.length ∧
    (handleIncoming m s).1.length = 10 + m.length ∧
    "\x7b\"type\":\"DATA\",\"src\":\"".length = 22 ∧ "\",\"dst\":\"".length = 9 ∧
    "\",\"payload\":\"".length = 13 ∧ "\"\x7d".length = 2 ∧ "Received: ".length = 10 := by
  have h1 : "\x7b\"type\":\"DATA\",\"src\":\"".length = 22 := by decide
  have h2 : "\",\"dst\":\"".length = 9 := by decide
  have h3 : "\",\"payload\":\"".length = 13 := by decide
  have h4 : "\"\x7d".length = 2 := by decide
  have h5 : "Received: ".length = 10 := by decide
  refine ⟨?_, ?_, h1, h2, h3, h4, h5⟩
  · rw [buildMessage_fst]
    simp only [String.length_append, h1, h2, h3, h4]
    omega
  · show ("Received: " ++ m).length = 10 + m.length
    rw [String.length_append, h5]

/-- C8: in the initial state the node id is "unknown", so a `buildMessage` made first
returns the message whose src value is "unknown". -/
theorem initial_node_id (payload dst : String) :
    State.initial.node_id = "unknown" ∧
    (buildMessage payload dst State.initial).1 =
      "\x7b\"type\":\"DATA\",\"src\":\"unknown\",\"dst\":\"" ++ dst ++
        "\",\"payload\":\"" ++ payload ++ "\"\x7d" := by
  refine ⟨rfl, ?_⟩
  rw [buildMessage_fst]
  have h : "\x7b\"type\":\"DATA\",\"src\":\"" ++ State.initial.node_id ++ "\",\"dst\":\"" =
      "\x7b\"type\":\"DATA\",\"src\":\"unknown\",\"dst\":\"" := by decide
  rw [h]

/-- C9: `buildMessage` is not injective: for every node id, payload "c" with dst
`a","payload":"b` and payload `b","payload":"c` with dst "a" are different pairs that
give the same message. -/
theorem buildMessage_not_injective (s : State) :
    ("c", "a" ++ "\",\"payload\":\"" ++ "b") ≠ ("b" ++ "\",\"payload\":\"" ++ "c", "a") ∧
    (buildMessage "c" ("a" ++ "\",\"payload\":\"" ++ "b") s).1 =
      (buildMessage ("b" ++ "\",\"payload\":\"" ++ "c") "a" s).1 ∧
    ¬ Function.Injective (fun pd : String × String => (buildMessage pd.1 pd.2 s).1) := by
  have hne : ("c", "a" ++ "\",\"payload\":\"" ++ "b") ≠
      ("b" ++ "\",\"payload\":\"" ++ "c", "a") := by decide
  have heq : (buildMessage "c" ("a" ++ "\",\"payload\":\"" ++ "b") s).1 =
      (buildMessage ("b" ++ "\",\"payload\":\"" ++ "c") "a" s).1 := by
    simp only [buildMessage_fst, String.append_assoc]
  exact ⟨hne, heq, fun hinj => hne (hinj heq)⟩

/-- C10: `buildMessage` is injective when the node ids and the destinations hold no
double quote: two such messages are equal only if the node ids, the destinations and
the payloads are equal, whatever characters the payloads hold. -/
theorem buildMessage_injective_quote_free (n1 n2 d1 d2 p1 p2 : String) (s1 s2 : State)
    (hn1 : '"' ∉ n1.data) (hn2 : '"' ∉ n2.data)
    (hd1 : '"' ∉ d1.data) (hd2 : '"' ∉ d2.data)
    (h : (buildMessage p1 d1 (setNodeId n1 s1).2).1 =
      (buildMessage p2 d2 (setNodeId n2 s2).2).1) :
    n1 = n2 ∧ d1 = d2 ∧ p1 = p2 := by
  have hdata := congrArg String.data h
  rw [buildMessage_data, buildMessage_data] at hdata
  have e1 := List.append_cancel_left hdata
  obtain ⟨hn, e2⟩ := split_at_first '"' _ _ _ _ hn1 hn2 e1
  have e3 := List.append_cancel_left e2
  obtain ⟨hd, e4⟩ := split_at_first '"' _ _ _ _ hd1 hd2 e3
  have e5 := List.append_cancel_left e4
  have hp := List.append_cancel_right e5
  exact ⟨String.ext hn, String.ext hd, String.ext hp⟩

/-- Witness of C10: node id "A", destination "B" and the payload `x"y\`, which holds
a quote and a backslash. -/
theorem buildMessage_injective_quote_free_witness :
    (buildMessage "x\"y\\" "B" (setNodeId "A" State.initial).2).1 =
      (buildMessage "x\"y\\" "B" (setNodeId "A" ⟨"old"⟩).2).1 ∧
    ("A" = "A" ∧ "B" = "B" ∧ "x\"y\\" = "x\"y\\") :=
  ⟨rfl, buildMessage_injective_quote_free "A" "A" "B" "B" "x\"y\\" "x\"y\\"
    State.initial ⟨"old"⟩ (by decide) (by decide) (by decide) (by decide) rfl⟩

/-- C11: `handleIncoming` is a lossless echo: dropping the first ten characters of
`handleIncoming m` gives m back, so `handleIncoming` is injective, whatever the state;
applied to a built message it returns "Received: " followed by that message unchanged,
and dropping the ten characters gives the built message back. -/
theorem handleIncoming_lossless (m payload dst : String) (s : State) :
    (handleIncoming m s).1.drop 10 = m ∧
    Function.Injective (fun a : String => (handleIncoming a s).1) ∧
    (∀ s2 : State, (handleIncoming m s2).1 = (handleIncoming m s).1) ∧
    (handleIncoming (buildMessage payload dst s).1 (buildMessage payload dst s).2).1 =
      "Received: " ++ ("\x7b\"type\":\"DATA\",\"src\":\"" ++ s.node_id ++ "\",\"dst\":\"" ++
        dst ++ "\",\"payload\":\"" ++ payload ++ "\"\x7d") ∧
    (handleIncoming (buildMessage payload dst s).1 (buildMessage payload dst s).2).1.drop 10 =
      (buildMessage payload dst s).1 ∧
    (handleIncoming "" s).1.drop 10 = "" ∧
    (handleIncoming "Received: " s).1 = "Received: Received: " := by
  have hdrop : ∀ a : String, ∀ t : State, (handleIncoming a t).1.drop 10 = a := by
    intro a t
    apply String.ext
    rw [String.data_drop]
    show ("Received: " ++ a).data.drop 10 = a.data
    rw [String.data_append]
    rfl
  have hecho : "Received: " ++ "Received: " = "Received: Received: " := by decide
  refine ⟨hdrop m s, ?_, fun _ => rfl, rfl, hdrop _ _, hdrop _ _, hecho⟩
  intro a b hab
  have h : (handleIncoming a s).1 = (handleIncoming b s).1 := hab
  rw [← hdrop a s, ← hdrop b s, h]

end Masaar
